import Mathlib

/-!
Shallow embedding of the edge-runtime prompt conversion
(`createEdgeRuntimeAPI.ts`): the client-side conversation data model,
the per-assistant-message splitter state machine
(`assistantMessageSplitter`), and the two conversion functions
`convertToLanguageModelMessage` / `convertToLanguageModelPrompt`.
Machine-level exceptions thrown by the TypeScript code are embedded as
`Except` errors; every definition is executable.
-/

/-- Modelled from the spec: a text content part of a client message
(type `TextContentPart`, declared outside the conversion source file).
It carries one text payload. -/
structure TextContentPart where
  text : String
  deriving DecidableEq, Repr

/-- Modelled from the spec: a tool-call content part of a client
assistant message (type `ToolCallContentPart`, declared outside the
conversion source file): a call identifier, a tool name, a structured
argument payload (opaque here), and an optional result payload that is
absent while the call is pending and present once it completed. -/
structure ToolCallContentPart where
  toolCallId : String
  toolName : String
  args : String
  result : Option String
  deriving DecidableEq, Repr

/-- A content part of a client user message: text or an image reference
given as a URI string. -/
inductive UserContentPart where
  | text (text : String)
  | image (image : String)
  deriving DecidableEq, Repr

/-- A content part of a client assistant message. -/
inductive AssistantContentPart where
  | text (part : TextContentPart)
  | toolCall (part : ToolCallContentPart)
  deriving DecidableEq, Repr

/-- A client conversation message (`CoreThreadMessage`), tagged by role.
The `other` constructor stands for a runtime message whose role string is
none of the three supported roles: the TypeScript role switch reaches its
`default` branch on such a value. -/
inductive CoreThreadMessage where
  | system (content : List TextContentPart)
  | user (content : List UserContentPart)
  | assistant (content : List AssistantContentPart)
  | other (role : String)
  deriving DecidableEq, Repr

/-- A resolved image locator, the embedding of a successfully constructed
platform `URL` object; it keeps the string it was parsed from. -/
structure URL where
  href : String
  deriving DecidableEq, Repr

/-- Character allowed in a URI scheme after the first letter. -/
def isSchemeChar (c : Char) : Bool :=
  c.isAlphanum || c == '+' || c == '-' || c == '.'

/-- Scheme tail check: scheme characters until a mandatory colon. -/
def schemeTail : List Char → Bool
  | [] => false
  | c :: rest => if c == ':' then true else isSchemeChar c && schemeTail rest

/-- Modelled from the spec: well-formedness of a URI string, standing in
for success of the platform `new URL(...)` constructor (an absolute URI
must start with a letter followed by scheme characters and a colon). -/
def wellFormedURI (s : String) : Bool :=
  match s.toList with
  | [] => false
  | c :: rest => c.isAlpha && schemeTail rest

/-- Modelled from the spec: the platform `new URL(...)` constructor.
A well-formed URI string parses to the resolved locator carrying that
string; a malformed string fails (the constructor throws). -/
def parseURL (s : String) : Option URL :=
  if wellFormedURI s then some ⟨s⟩ else none

/-- A content part of a backend `user` prompt message
(`LanguageModelV1TextPart` or `LanguageModelV1ImagePart`). -/
inductive LanguageModelV1UserPart where
  | text (text : String)
  | image (image : URL)
  deriving DecidableEq, Repr

/-- A content part of a backend `assistant` prompt message
(`LanguageModelV1TextPart` or `LanguageModelV1ToolCallPart`): text, or a
tool call carrying id, name and arguments but never a result. -/
inductive LanguageModelV1AssistantPart where
  | text (text : String)
  | toolCall (toolCallId : String) (toolName : String) (args : String)
  deriving DecidableEq, Repr

/-- An entry of a backend `tool` prompt message
(`LanguageModelV1ToolResultPart`): call id, tool name, result payload. -/
structure LanguageModelV1ToolResultPart where
  toolCallId : String
  toolName : String
  result : String
  deriving DecidableEq, Repr

/-- A backend prompt message (`LanguageModelV1Message`). -/
inductive LanguageModelV1Message where
  | system (content : String)
  | user (content : List LanguageModelV1UserPart)
  | assistant (content : List LanguageModelV1AssistantPart)
  | tool (content : List LanguageModelV1ToolResultPart)
  deriving DecidableEq, Repr

/-- Failure modes of the conversion. The first three form the error
taxonomy of the spec (raised explicitly by the source); `runtimeTypeError` embeds a
machine-level TypeError the TypeScript engine would raise on its own,
such as reading a property of `undefined`. -/
inductive ConvError where
  | malformedContent (image : String)
  | unknownContentType (tag : String)
  | unknownRole (role : String)
  | runtimeTypeError (message : String)
  deriving DecidableEq, Repr

/-- State of `assistantMessageSplitter`: the stash of finalized prompt
messages, the in-progress assistant content list (`assistantMessage.content`)
and the in-progress tool-result list (`toolMessage.content`). -/
structure SplitterState where
  stash : List LanguageModelV1Message
  assistantContent : List LanguageModelV1AssistantPart
  toolContent : List LanguageModelV1ToolResultPart
  deriving DecidableEq, Repr

/-- Initial splitter state: empty stash, empty current buffers. -/
def initialSplitterState : SplitterState := ⟨[], [], []⟩

/-- The splitter method `addTextContentPart`: if the current tool-result list
is non-empty, push the current assistant message and the current tool
message onto the stash and reset both buffers; then append the text part
to the current assistant content. -/
def addTextContentPart (s : SplitterState) (part : TextContentPart) :
    SplitterState :=
  let s1 :=
    if s.toolContent.length > 0 then
      { stash := s.stash ++
          [LanguageModelV1Message.assistant s.assistantContent,
           LanguageModelV1Message.tool s.toolContent],
        assistantContent := [],
        toolContent := [] }
    else s
  { s1 with assistantContent :=
      s1.assistantContent ++ [LanguageModelV1AssistantPart.text part.text] }

/-- The splitter method `addToolCallPart`: always append a tool-call entry
(id, name, args) to the current assistant content; if the part carries a
result, also append a tool-result entry (id, name, result) to the current
tool-result list. -/
def addToolCallPart (s : SplitterState) (part : ToolCallContentPart) :
    SplitterState :=
  let s1 := { s with assistantContent := s.assistantContent ++
      [LanguageModelV1AssistantPart.toolCall part.toolCallId part.toolName
        part.args] }
  match part.result with
  | some r => { s1 with toolContent := s1.toolContent ++
      [⟨part.toolCallId, part.toolName, r⟩] }
  | none => s1

/-- The splitter method `getMessages`: if the current tool-result list is
non-empty, emit stash plus the final assistant/tool pair; otherwise emit
stash plus a trailing assistant-only message. -/
def getMessages (s : SplitterState) : List LanguageModelV1Message :=
  if s.toolContent.length > 0 then
    s.stash ++ [LanguageModelV1Message.assistant s.assistantContent,
                LanguageModelV1Message.tool s.toolContent]
  else
    s.stash ++ [LanguageModelV1Message.assistant s.assistantContent]

/-- One iteration of the `for (const part of message.content)` loop of
the assistant case: dispatch on the content part type. -/
def splitterStep (s : SplitterState) (part : AssistantContentPart) :
    SplitterState :=
  match part with
  | .text p => addTextContentPart s p
  | .toolCall p => addToolCallPart s p

/-- The assistant case of `convertToLanguageModelMessage`: run the
splitter over the parts in order and collect its messages. -/
def splitAssistantMessage (parts : List AssistantContentPart) :
    List LanguageModelV1Message :=
  getMessages (parts.foldl splitterStep initialSplitterState)

/-- The inline mapping function of the user case: text passes through,
an image reference is parsed into a resolved locator, a parse failure is
the `MalformedContent` error. -/
def convertUserPart (part : UserContentPart) :
    Except ConvError LanguageModelV1UserPart :=
  match part with
  | .text t => .ok (.text t)
  | .image img =>
      match parseURL img with
      | some u => .ok (.image u)
      | none => .error (.malformedContent img)

/-- Embedding of `Array.prototype.map` with a throwing callback: apply
`f` left to right, aborting at the first error with no partial output. -/
def mapOrFail (f : α → Except ε β) : List α → Except ε (List β)
  | [] => .ok []
  | x :: xs => do
      let y ← f x
      let ys ← mapOrFail f xs
      pure (y :: ys)

/-- The source function `convertToLanguageModelMessage`: dispatch on the role.
A system message reads its first content entry unguarded (on an empty
list the engine raises a TypeError); a user message maps its parts 1:1;
an assistant message is delegated to the splitter; any other role is the
`UnknownRole` contract error. -/
def convertToLanguageModelMessage (message : CoreThreadMessage) :
    Except ConvError (List LanguageModelV1Message) :=
  match message with
  | .system content =>
      match content with
      | [] => .error (.runtimeTypeError "Cannot read properties of undefined")
      | part :: _ => .ok [.system part.text]
  | .user content =>
      Except.map (fun parts => [LanguageModelV1Message.user parts])
        (mapOrFail convertUserPart content)
  | .assistant content => .ok (splitAssistantMessage content)
  | .other role => .error (.unknownRole role)

/-- Embedding of `Array.prototype.flatMap` with a throwing callback:
apply `f` left to right, concatenating results in input order and
aborting at the first error with no partial output. -/
def flatMapOrFail (f : α → Except ε (List β)) : List α → Except ε (List β)
  | [] => .ok []
  | x :: xs => do
      let ys ← f x
      let zs ← flatMapOrFail f xs
      pure (ys ++ zs)

/-- The source function `convertToLanguageModelPrompt`: an optional system
preamble becomes a leading `system` prompt message, followed by the
per-message conversions flattened in input order. -/
def convertToLanguageModelPrompt (system : Option String)
    (messages : List CoreThreadMessage) :
    Except ConvError (List LanguageModelV1Message) :=
  Except.map
    (fun rest =>
      (match system with
       | some s => [LanguageModelV1Message.system s]
       | none => []) ++ rest)
    (flatMapOrFail convertToLanguageModelMessage messages)

/-- A tool-result entry is covered by an assistant content list when some
tool-call entry of that list carries the same call id and tool name. -/
def matchedIn (c : List LanguageModelV1AssistantPart)
    (tr : LanguageModelV1ToolResultPart) : Bool :=
  c.any fun p =>
    match p with
    | .toolCall id name _ => id == tr.toolCallId && name == tr.toolName
    | _ => false

/-- Well-formed alternation of a prompt-message sequence, tracked with
the content of the immediately preceding message when it was an
assistant message: a `tool` message is legal only when the previous
message is an `assistant` message whose tool-call entries cover every
tool-result entry, and a `tool` message itself (like `system` and
`user`) resets the tracker, so two `tool` messages are never adjacent. -/
def chainOk : Option (List LanguageModelV1AssistantPart) →
    List LanguageModelV1Message → Bool
  | _, [] => true
  | prev, .tool t :: rest =>
      (match prev with
       | some c => t.all (matchedIn c)
       | none => false) && chainOk none rest
  | _, .assistant c :: rest => chainOk (some c) rest
  | _, .system _ :: rest => chainOk none rest
  | _, .user _ :: rest => chainOk none rest

/-- Role test for `tool` prompt messages. -/
def isToolMessage : LanguageModelV1Message → Bool
  | .tool _ => true
  | _ => false

/-- Invariant of the splitter state: the stash extends any well-formed
continuation to a well-formed sequence, and every tool-result entry of
the current tool buffer is covered by the current assistant buffer. -/
def SplitterInv (s : SplitterState) : Prop :=
  (∀ tail, chainOk none tail = true → chainOk none (s.stash ++ tail) = true)
  ∧ s.toolContent.all (matchedIn s.assistantContent) = true

/-- A user content part converts without error: text always does, an
image part exactly when its reference string is a well-formed URI. -/
def userPartOk : UserContentPart → Bool
  | .text _ => true
  | .image img => wellFormedURI img

/-- Pointwise correspondence between a user content part and the prompt
content part it maps to: text passes through unchanged, an image
reference maps to the resolved locator obtained by parsing that same
string. -/
def partCorresponds : UserContentPart → LanguageModelV1UserPart → Prop
  | .text t, q => q = LanguageModelV1UserPart.text t
  | .image img, q => ∃ u, parseURL img = some u ∧ q = LanguageModelV1UserPart.image u

/-- Role support test: the three roles handled by the conversion switch. -/
def isSupportedRole : CoreThreadMessage → Bool
  | .other _ => false
  | _ => true

/-- Result classifier: does a conversion result consist of the
`UnknownRole` error? -/
def isUnknownRoleError : Except ConvError (List LanguageModelV1Message) → Bool
  | .error (.unknownRole _) => true
  | _ => false

/-- Membership in the error taxonomy of the spec
(MalformedContent / UnknownRole / UnknownContentType); a machine-level
TypeError is outside the taxonomy. -/
def isSpecTaxonomyError : ConvError → Bool
  | .malformedContent _ => true
  | .unknownRole _ => true
  | .unknownContentType _ => true
  | .runtimeTypeError _ => false

theorem splitterInv_initial : SplitterInv initialSplitterState := by
  constructor
  · intro tail h
    simpa [initialSplitterState] using h
  · simp [initialSplitterState]

theorem matchedIn_append (c : List LanguageModelV1AssistantPart)
    (e : LanguageModelV1AssistantPart) (tr : LanguageModelV1ToolResultPart)
    (h : matchedIn c tr = true) : matchedIn (c ++ [e]) tr = true := by
  simp only [matchedIn, List.any_append, Bool.or_eq_true]
  exact Or.inl h

theorem splitterInv_addText (s : SplitterState) (part : TextContentPart)
    (h : SplitterInv s) : SplitterInv (addTextContentPart s part) := by
  obtain ⟨hstash, hmatch⟩ := h
  unfold addTextContentPart
  by_cases hc : s.toolContent.length > 0
  · simp only [hc, if_pos]
    refine ⟨?_, by simp⟩
    intro tail htail
    rw [List.append_assoc]
    apply hstash
    simp only [List.cons_append, List.nil_append, chainOk]
    simp [hmatch, htail]
  · simp only [hc, if_neg, not_false_eq_true]
    have hnil : s.toolContent = [] := by
      simpa using Nat.eq_zero_of_not_pos hc
    exact ⟨hstash, by simp [hnil]⟩

theorem splitterInv_addToolCall (s : SplitterState)
    (part : ToolCallContentPart) (h : SplitterInv s) :
    SplitterInv (addToolCallPart s part) := by
  obtain ⟨hstash, hmatch⟩ := h
  unfold addToolCallPart
  cases hres : part.result with
  | none =>
      refine ⟨hstash, ?_⟩
      simp only [List.all_eq_true] at hmatch ⊢
      intro tr htr
      exact matchedIn_append _ _ _ (hmatch tr htr)
  | some r =>
      refine ⟨hstash, ?_⟩
      simp only [List.all_eq_true, List.mem_append, List.mem_singleton]
      rintro tr (htr | rfl)
      · simp only [List.all_eq_true] at hmatch
        exact matchedIn_append _ _ _ (hmatch tr htr)
      · simp [matchedIn]

theorem splitterInv_fold (parts : List AssistantContentPart) :
    ∀ s : SplitterState, SplitterInv s →
      SplitterInv (parts.foldl splitterStep s) := by
  induction parts with
  | nil => intro s h; exact h
  | cons p rest ih =>
      intro s h
      simp only [List.foldl_cons]
      apply ih
      cases p with
      | text tp => exact splitterInv_addText s tp h
      | toolCall cp => exact splitterInv_addToolCall s cp h

theorem chainOk_getMessages (s : SplitterState) (h : SplitterInv s) :
    chainOk none (getMessages s) = true := by
  obtain ⟨hstash, hmatch⟩ := h
  unfold getMessages
  by_cases hc : s.toolContent.length > 0
  · simp only [hc, if_pos]
    apply hstash
    simp [chainOk, hmatch]
  · simp only [hc, if_neg, not_false_eq_true]
    apply hstash
    simp [chainOk]

theorem chainOk_splitAssistantMessage (parts : List AssistantContentPart) :
    chainOk none (splitAssistantMessage parts) = true :=
  chainOk_getMessages _ (splitterInv_fold parts _ splitterInv_initial)

theorem splitAssistantMessage_ne_nil (parts : List AssistantContentPart) :
    splitAssistantMessage parts ≠ [] := by
  unfold splitAssistantMessage getMessages
  by_cases hc : ((parts.foldl splitterStep initialSplitterState).toolContent).length > 0 <;>
    simp [hc]

theorem chainOk_head_not_tool (l : List LanguageModelV1Message)
    (hok : chainOk none l = true) (hl : 0 < l.length) :
    isToolMessage (l.get ⟨0, hl⟩) = false := by
  cases l with
  | nil => simp at hl
  | cons m rest =>
      cases m with
      | tool t => simp [chainOk] at hok
      | system c => simp [isToolMessage]
      | user c => simp [isToolMessage]
      | assistant c => simp [isToolMessage]

theorem chainOk_adjacent (l : List LanguageModelV1Message) :
    ∀ (prev : Option (List LanguageModelV1AssistantPart)),
      chainOk prev l = true →
      ∀ (i : Nat) (h : i + 1 < l.length)
        (t : List LanguageModelV1ToolResultPart),
        l.get ⟨i + 1, h⟩ = LanguageModelV1Message.tool t →
        ∃ c, l.get ⟨i, Nat.lt_of_succ_lt h⟩ =
            LanguageModelV1Message.assistant c
          ∧ t.all (matchedIn c) = true := by
  induction l with
  | nil =>
      intro prev _ i h
      simp at h
  | cons m rest ih =>
      intro prev hok i h t hget
      cases i with
      | zero =>
          cases rest with
          | nil => simp at h
          | cons r0 rest2 =>
              have hr0 : r0 = LanguageModelV1Message.tool t := hget
              subst hr0
              cases m with
              | assistant c =>
                  simp only [chainOk, Bool.and_eq_true] at hok
                  exact ⟨c, rfl, hok.1⟩
              | system c => simp [chainOk] at hok
              | user c => simp [chainOk] at hok
              | tool t0 => simp [chainOk] at hok
      | succ k =>
          have h' : k + 1 < rest.length := Nat.lt_of_succ_lt_succ h
          have hget' : rest.get ⟨k + 1, h'⟩ = LanguageModelV1Message.tool t :=
            hget
          cases m with
          | assistant c =>
              obtain ⟨c', hc', hm⟩ := ih (some c)
                (by simpa [chainOk] using hok) k h' t hget'
              exact ⟨c', hc', hm⟩
          | system c =>
              obtain ⟨c', hc', hm⟩ := ih none
                (by simpa [chainOk] using hok) k h' t hget'
              exact ⟨c', hc', hm⟩
          | user c =>
              obtain ⟨c', hc', hm⟩ := ih none
                (by simpa [chainOk] using hok) k h' t hget'
              exact ⟨c', hc', hm⟩
          | tool t0 =>
              simp only [chainOk, Bool.and_eq_true] at hok
              obtain ⟨c', hc', hm⟩ := ih none hok.2 k h' t hget'
              exact ⟨c', hc', hm⟩

theorem flatMapOrFail_eq_map {α ε β : Type} (f : α → Except ε (List β)) :
    ∀ l : List α,
      flatMapOrFail f l = Except.map List.flatten (mapOrFail f l) := by
  intro l
  induction l with
  | nil => rfl
  | cons x xs ih =>
      simp only [flatMapOrFail, mapOrFail]
      cases hfx : f x with
      | error e => simp [Bind.bind, Except.bind, Except.map]
      | ok y =>
          simp only [Bind.bind, Except.bind, ih]
          cases hmx : mapOrFail f xs with
          | error e => simp [Except.map]
          | ok ys => simp [Except.map, pure, Except.pure, List.flatten]

theorem mapOrFail_user_ok (parts : List UserContentPart)
    (hall : parts.all userPartOk = true) :
    ∃ l, mapOrFail convertUserPart parts = .ok l
      ∧ List.Forall₂ partCorresponds parts l := by
  induction parts with
  | nil => exact ⟨[], rfl, List.Forall₂.nil⟩
  | cons p rest ih =>
      simp only [List.all_cons, Bool.and_eq_true] at hall
      obtain ⟨hp, hrest⟩ := hall
      obtain ⟨l, hl, hcorr⟩ := ih hrest
      cases p with
      | text t =>
          refine ⟨LanguageModelV1UserPart.text t :: l, ?_, ?_⟩
          · simp [mapOrFail, convertUserPart, hl, Bind.bind, Except.bind,
              pure, Except.pure]
          · exact List.Forall₂.cons rfl hcorr
      | image img =>
          have hw : wellFormedURI img = true := hp
          refine ⟨LanguageModelV1UserPart.image ⟨img⟩ :: l, ?_, ?_⟩
          · simp [mapOrFail, convertUserPart, parseURL, hw, hl, Bind.bind,
              Except.bind, pure, Except.pure]
          · exact List.Forall₂.cons ⟨⟨img⟩, by simp [parseURL, hw], rfl⟩ hcorr

theorem mapOrFail_user_err (parts : List UserContentPart)
    (hall : parts.all userPartOk = false) :
    ∃ img, mapOrFail convertUserPart parts =
        .error (ConvError.malformedContent img)
      ∧ wellFormedURI img = false := by
  induction parts with
  | nil => simp at hall
  | cons p rest ih =>
      cases hp : userPartOk p with
      | false =>
          cases p with
          | text t => simp [userPartOk] at hp
          | image img =>
              have hw : wellFormedURI img = false := hp
              refine ⟨img, ?_, hw⟩
              simp [mapOrFail, convertUserPart, parseURL, hw, Bind.bind,
                Except.bind]
      | true =>
          have hrest : rest.all userPartOk = false := by
            simpa [List.all_cons, hp] using hall
          obtain ⟨img, herr, hw⟩ := ih hrest
          refine ⟨img, ?_, hw⟩
          cases p with
          | text t =>
              simp [mapOrFail, convertUserPart, herr, Bind.bind, Except.bind]
          | image i =>
              have hw2 : wellFormedURI i = true := hp
              simp [mapOrFail, convertUserPart, parseURL, hw2, herr,
                Bind.bind, Except.bind]

theorem mapOrFail_user_shape (parts : List UserContentPart) :
    (∃ l, mapOrFail convertUserPart parts = .ok l)
    ∨ (∃ img, mapOrFail convertUserPart parts =
        .error (ConvError.malformedContent img)) := by
  cases hall : parts.all userPartOk with
  | true =>
      obtain ⟨l, hl, _⟩ := mapOrFail_user_ok parts hall
      exact Or.inl ⟨l, hl⟩
  | false =>
      obtain ⟨img, herr, _⟩ := mapOrFail_user_err parts hall
      exact Or.inr ⟨img, herr⟩

/-- C1: when the splitter visits a text part while the current
tool-result list is non-empty, it pushes the current assistant message
and the current tool message onto the stash and starts a fresh pair
holding only the new text; a tool-call part never touches the stash. On
the message with parts (tool-call A with result, text x, tool-call B
with result) the splitter emits exactly the two pairs
(assistant holding A, tool holding the A result) and
(assistant holding x and B, tool holding the B result). -/
theorem splitter_text_rotation :
    (∀ (s : SplitterState) (part : TextContentPart), s.toolContent ≠ [] →
      addTextContentPart s part =
        { stash := s.stash ++
            [LanguageModelV1Message.assistant s.assistantContent,
             LanguageModelV1Message.tool s.toolContent],
          assistantContent := [LanguageModelV1AssistantPart.text part.text],
          toolContent := [] })
    ∧ (∀ (s : SplitterState) (part : ToolCallContentPart),
        (addToolCallPart s part).stash = s.stash)
    ∧ convertToLanguageModelMessage (CoreThreadMessage.assistant
        [AssistantContentPart.toolCall ⟨"a", "search", "argsA", some "resA"⟩,
         AssistantContentPart.text ⟨"x"⟩,
         AssistantContentPart.toolCall ⟨"b", "fetch", "argsB", some "resB"⟩]) =
      Except.ok
        [LanguageModelV1Message.assistant
           [LanguageModelV1AssistantPart.toolCall "a" "search" "argsA"],
         LanguageModelV1Message.tool [⟨"a", "search", "resA"⟩],
         LanguageModelV1Message.assistant
           [LanguageModelV1AssistantPart.text "x",
            LanguageModelV1AssistantPart.toolCall "b" "fetch" "argsB"],
         LanguageModelV1Message.tool [⟨"b", "fetch", "resB"⟩]] := by
  refine ⟨?_, ?_, rfl⟩
  · intro s part h
    have hc : s.toolContent.length > 0 := List.length_pos.mpr h
    simp [addTextContentPart, hc]
  · intro s part
    cases h : part.result <;> simp [addToolCallPart, h]

/-- Witness for C1 at a concrete state with a non-empty tool buffer and
a concrete tool-call part. -/
theorem splitter_text_rotation_witness :
    addTextContentPart
        ⟨[], [LanguageModelV1AssistantPart.toolCall "a" "search" "argsA"],
         [⟨"a", "search", "resA"⟩]⟩ ⟨"x"⟩ =
      { stash := [] ++
          [LanguageModelV1Message.assistant
             [LanguageModelV1AssistantPart.toolCall "a" "search" "argsA"],
           LanguageModelV1Message.tool [⟨"a", "search", "resA"⟩]],
        assistantContent := [LanguageModelV1AssistantPart.text "x"],
        toolContent := [] } :=
  splitter_text_rotation.1
    ⟨[], [LanguageModelV1AssistantPart.toolCall "a" "search" "argsA"],
     [⟨"a", "search", "resA"⟩]⟩ ⟨"x"⟩ (by decide)

/-- C2: on every tool-call part the splitter appends a tool-call entry
(id, name, args) to the current assistant content; it appends a matching
tool-result entry (id, name, result) to the current tool-result list
exactly when the part carries a result. -/
theorem splitter_tool_call_append :
    ∀ (s : SplitterState) (part : ToolCallContentPart),
      (addToolCallPart s part).assistantContent =
        s.assistantContent ++
          [LanguageModelV1AssistantPart.toolCall part.toolCallId
            part.toolName part.args]
      ∧ (∀ r, part.result = some r →
          (addToolCallPart s part).toolContent =
            s.toolContent ++ [⟨part.toolCallId, part.toolName, r⟩])
      ∧ (part.result = none →
          (addToolCallPart s part).toolContent = s.toolContent) := by
  intro s part
  refine ⟨?_, ?_, ?_⟩
  · cases h : part.result <;> simp [addToolCallPart, h]
  · intro r hr
    simp [addToolCallPart, hr]
  · intro hr
    simp [addToolCallPart, hr]

/-- Witness for C2 at a concrete state, once with a resolved call and
once with a pending call. -/
theorem splitter_tool_call_append_witness :
    ((addToolCallPart initialSplitterState
        ⟨"a", "search", "argsA", some "resA"⟩).toolContent =
      initialSplitterState.toolContent ++ [⟨"a", "search", "resA"⟩])
    ∧ ((addToolCallPart initialSplitterState
        ⟨"b", "fetch", "argsB", none⟩).toolContent =
      initialSplitterState.toolContent) :=
  ⟨(splitter_tool_call_append initialSplitterState
      ⟨"a", "search", "argsA", some "resA"⟩).2.1 "resA" rfl,
   (splitter_tool_call_append initialSplitterState
      ⟨"b", "fetch", "argsB", none⟩).2.2 rfl⟩

/-- C3: at finalization the splitter emits the stash followed by the
current assistant message and, exactly when the current tool-result list
is non-empty, the current tool message; the message with two pending
tool calls therefore yields a single assistant-only turn holding both
calls and no tool turn. -/
theorem splitter_finalization :
    (∀ s : SplitterState,
      (s.toolContent ≠ [] →
        getMessages s = s.stash ++
          [LanguageModelV1Message.assistant s.assistantContent,
           LanguageModelV1Message.tool s.toolContent])
      ∧ (s.toolContent = [] →
        getMessages s = s.stash ++
          [LanguageModelV1Message.assistant s.assistantContent]))
    ∧ convertToLanguageModelMessage (CoreThreadMessage.assistant
        [AssistantContentPart.toolCall ⟨"a", "search", "argsA", none⟩,
         AssistantContentPart.toolCall ⟨"b", "fetch", "argsB", none⟩]) =
      Except.ok
        [LanguageModelV1Message.assistant
           [LanguageModelV1AssistantPart.toolCall "a" "search" "argsA",
            LanguageModelV1AssistantPart.toolCall "b" "fetch" "argsB"]] := by
  refine ⟨?_, rfl⟩
  intro s
  constructor
  · intro h
    have hc : s.toolContent.length > 0 := List.length_pos.mpr h
    simp [getMessages, hc]
  · intro h
    simp [getMessages, h]

/-- Witness for C3 at concrete states with a non-empty and with an empty
tool buffer. -/
theorem splitter_finalization_witness :
    (getMessages ⟨[], [], [⟨"a", "search", "resA"⟩]⟩ =
      [] ++ [LanguageModelV1Message.assistant [],
             LanguageModelV1Message.tool [⟨"a", "search", "resA"⟩]])
    ∧ (getMessages initialSplitterState =
      [] ++ [LanguageModelV1Message.assistant []]) :=
  ⟨(splitter_finalization.1 ⟨[], [], [⟨"a", "search", "resA"⟩]⟩).1 (by decide),
   (splitter_finalization.1 initialSplitterState).2 rfl⟩

/-- C4: in the sequence the splitter emits for any assistant message,
the first message is never a tool message, and every tool message sits
right after an assistant message whose tool-call entries cover every one
of its tool-result entries (same call id and tool name); consequently no
two tool messages are adjacent. -/
theorem splitter_tool_turn_invariant (parts : List AssistantContentPart) :
    (∀ (h : 0 < (splitAssistantMessage parts).length),
      isToolMessage ((splitAssistantMessage parts).get ⟨0, h⟩) = false)
    ∧ (∀ (i : Nat) (h : i + 1 < (splitAssistantMessage parts).length)
        (t : List LanguageModelV1ToolResultPart),
        (splitAssistantMessage parts).get ⟨i + 1, h⟩ =
          LanguageModelV1Message.tool t →
        ∃ c, (splitAssistantMessage parts).get ⟨i, Nat.lt_of_succ_lt h⟩ =
            LanguageModelV1Message.assistant c
          ∧ t.all (matchedIn c) = true) :=
  ⟨fun h => chainOk_head_not_tool _ (chainOk_splitAssistantMessage parts) h,
   fun i h t hget =>
     chainOk_adjacent _ none (chainOk_splitAssistantMessage parts) i h t hget⟩

/-- Witness for C4 on a message with one resolved call: position zero is
the assistant message and the tool message at position one is covered by
it. -/
theorem splitter_tool_turn_invariant_witness :
    (isToolMessage ((splitAssistantMessage
        [AssistantContentPart.toolCall
          ⟨"a", "search", "argsA", some "resA"⟩]).get ⟨0, by decide⟩) = false)
    ∧ ∃ c, (splitAssistantMessage
        [AssistantContentPart.toolCall
          ⟨"a", "search", "argsA", some "resA"⟩]).get ⟨0, by decide⟩ =
          LanguageModelV1Message.assistant c
        ∧ ([⟨"a", "search", "resA"⟩] :
            List LanguageModelV1ToolResultPart).all (matchedIn c) = true :=
  ⟨(splitter_tool_turn_invariant
      [AssistantContentPart.toolCall ⟨"a", "search", "argsA", some "resA"⟩]).1
      (by decide),
   (splitter_tool_turn_invariant
      [AssistantContentPart.toolCall ⟨"a", "search", "argsA", some "resA"⟩]).2
      0 (by decide) [⟨"a", "search", "resA"⟩] (by decide)⟩

/-- C5: converting a conversation with no system preamble equals the
concatenation, in input order, of the per-message conversions. -/
theorem prompt_conversion_homomorphism (messages : List CoreThreadMessage) :
    convertToLanguageModelPrompt none messages =
      Except.map List.flatten
        (mapOrFail convertToLanguageModelMessage messages) := by
  unfold convertToLanguageModelPrompt
  rw [flatMapOrFail_eq_map]
  cases mapOrFail convertToLanguageModelMessage messages <;> simp [Except.map]

/-- C6: a present system preamble becomes exactly one leading system
prompt message in front of the per-message conversions, and an absent
one adds nothing; on the concrete scenario the preamble is emitted
first. -/
theorem prompt_system_preamble :
    (∀ (sys : String) (messages : List CoreThreadMessage),
      convertToLanguageModelPrompt (some sys) messages =
        Except.map (fun l => LanguageModelV1Message.system sys :: l)
          (convertToLanguageModelPrompt none messages))
    ∧ convertToLanguageModelPrompt (some "be terse")
        [CoreThreadMessage.user [UserContentPart.text "hi"]] =
      Except.ok [LanguageModelV1Message.system "be terse",
        LanguageModelV1Message.user [LanguageModelV1UserPart.text "hi"]] := by
  refine ⟨?_, rfl⟩
  intro sys messages
  unfold convertToLanguageModelPrompt
  cases flatMapOrFail convertToLanguageModelMessage messages <;>
    simp [Except.map]

/-- C7: a user message whose parts are all convertible maps to exactly
one user prompt message whose content corresponds 1:1 in order (text
unchanged, images resolved by parsing the same string); a malformed
image reference makes the whole conversion fail with MalformedContent. -/
theorem user_message_conversion (parts : List UserContentPart) :
    (parts.all userPartOk = true →
      ∃ l, convertToLanguageModelMessage (CoreThreadMessage.user parts) =
          .ok [LanguageModelV1Message.user l]
        ∧ List.Forall₂ partCorresponds parts l)
    ∧ (parts.all userPartOk = false →
      ∃ img, convertToLanguageModelMessage (CoreThreadMessage.user parts) =
          .error (ConvError.malformedContent img)
        ∧ wellFormedURI img = false) := by
  constructor
  · intro h
    obtain ⟨l, hl, hcorr⟩ := mapOrFail_user_ok parts h
    exact ⟨l, by simp [convertToLanguageModelMessage, hl, Except.map], hcorr⟩
  · intro h
    obtain ⟨img, herr, hw⟩ := mapOrFail_user_err parts h
    exact ⟨img, by simp [convertToLanguageModelMessage, herr, Except.map], hw⟩

/-- Witness for C7: a concrete user message with a text part and a
well-formed image reference converts, and one with a malformed reference
fails. -/
theorem user_message_conversion_witness :
    (∃ l, convertToLanguageModelMessage (CoreThreadMessage.user
        [UserContentPart.text "hi",
         UserContentPart.image "https://example.com/cat.png"]) =
        .ok [LanguageModelV1Message.user l]
      ∧ List.Forall₂ partCorresponds
          [UserContentPart.text "hi",
           UserContentPart.image "https://example.com/cat.png"] l)
    ∧ (∃ img, convertToLanguageModelMessage (CoreThreadMessage.user
        [UserContentPart.image "not a uri"]) =
        .error (ConvError.malformedContent img)
      ∧ wellFormedURI img = false) :=
  ⟨(user_message_conversion
      [UserContentPart.text "hi",
       UserContentPart.image "https://example.com/cat.png"]).1 (by decide),
   (user_message_conversion [UserContentPart.image "not a uri"]).2
      (by decide)⟩

/-- C8: a message whose role is none of system, user, assistant fails
with the UnknownRole error carrying that role, and a message with a
supported role never produces an UnknownRole error. -/
theorem unknown_role_error :
    (∀ role : String, role ≠ "system" → role ≠ "user" → role ≠ "assistant" →
      convertToLanguageModelMessage (CoreThreadMessage.other role) =
        .error (ConvError.unknownRole role))
    ∧ (∀ m : CoreThreadMessage, isSupportedRole m = true →
      isUnknownRoleError (convertToLanguageModelMessage m) = false) := by
  constructor
  · intro role _ _ _
    rfl
  · intro m hm
    cases m with
    | system content => cases content <;> rfl
    | user content =>
        rcases mapOrFail_user_shape content with ⟨l, hl⟩ | ⟨img, herr⟩
        · simp [convertToLanguageModelMessage, hl, Except.map,
            isUnknownRoleError]
        · simp [convertToLanguageModelMessage, herr, Except.map,
            isUnknownRoleError]
    | assistant content => rfl
    | other r => simp [isSupportedRole] at hm

/-- Witness for C8: the role string tool is unsupported and fails with
UnknownRole, while a supported-role message never does. -/
theorem unknown_role_error_witness :
    (convertToLanguageModelMessage (CoreThreadMessage.other "tool") =
      .error (ConvError.unknownRole "tool"))
    ∧ isUnknownRoleError
        (convertToLanguageModelMessage (CoreThreadMessage.assistant [])) =
      false :=
  ⟨unknown_role_error.1 "tool" (by decide) (by decide) (by decide),
   unknown_role_error.2 (CoreThreadMessage.assistant []) rfl⟩

/-- C9: an assistant message with zero content parts converts without
error to exactly one assistant prompt message with empty content and no
tool message. -/
theorem empty_assistant_message :
    convertToLanguageModelMessage (CoreThreadMessage.assistant []) =
      .ok [LanguageModelV1Message.assistant []] := rfl

/-- C10: a system conversation message with an empty content list does
not convert to a system prompt message: reading the first content entry
unguarded fails with a machine-level TypeError that lies outside the
MalformedContent / UnknownRole / UnknownContentType taxonomy of the spec. -/
theorem empty_system_message_failure :
    convertToLanguageModelMessage (CoreThreadMessage.system []) =
      .error (ConvError.runtimeTypeError
        "Cannot read properties of undefined")
    ∧ isSpecTaxonomyError
        (ConvError.runtimeTypeError "Cannot read properties of undefined") =
      false
    ∧ (convertToLanguageModelMessage (CoreThreadMessage.system [])).isOk =
      false :=
  ⟨rfl, rfl, rfl⟩

